import Mathlib

/-!
Verification of the repository-acquisition / PR-publication slice of the
SWE-agent codebase (sweagent/environment/repo.py, sweagent/agent/problem_statement.py,
sweagent/utils/gitlab.py, sweagent/run/hooks/open_pr.py,
sweagent/run/hooks/open_pr_gitlab.py) against its natural-language specification.

The Python code is shallowly embedded: Python `str` becomes `String` (or
`List Char` where character-level reasoning is needed), Python lists become
`List`, `None`-able values become `Option`, and functions that raise become
`Except`-valued.  Network calls and the sandbox runtime are external
collaborators; data they return (issue payloads, commit lists) enters the
embedded functions as explicit arguments.
-/

namespace SWEAgent

/-! ## Basic string helpers (Python semantics) -/

/-- `List`-level prefix test, used to model Python `str.startswith`. -/
def isPrefixList : List Char → List Char → Bool
  | [], _ => true
  | _ :: _, [] => false
  | a :: as, b :: bs => a == b && isPrefixList as bs

/-- Python `s.startswith(p)`. -/
def strStartsWith (s p : String) : Bool := isPrefixList p.data s.data

/-- Python `s.count(c)` for a single-character needle `c`. -/
def countChar (s : String) (c : Char) : Nat := s.data.count c

/-- Python slice `s[a:b]` for `a ≤ b` (by code points, as in Python). -/
def pySlice (s : String) (a b : Nat) : String := ⟨(s.data.drop a).take (b - a)⟩

/-! ## repo.py: reset commands and URL normalization -/

/-- `_get_git_reset_commands` (repo.py:31-37). -/
def _get_git_reset_commands (base_commit : String) : List String :=
  ["git status",
   "git restore .",
   "git reset --hard " ++ base_commit,
   "git clean -fdq"]

/-- `PreExistingRepoConfig` (repo.py:40-67); only the fields the claims need. -/
structure PreExistingRepoConfig where
  repo_name : String
  base_commit : String := "HEAD"

def PreExistingRepoConfig.get_reset_commands (c : PreExistingRepoConfig) : List String :=
  _get_git_reset_commands c.base_commit

/-- `LocalRepoConfig` (repo.py:70-114); `path` kept as a plain string. -/
structure LocalRepoConfig where
  path : String
  base_commit : String := "HEAD"

def LocalRepoConfig.get_reset_commands (c : LocalRepoConfig) : List String :=
  _get_git_reset_commands c.base_commit

/-- `GithubRepoConfig.model_post_init` (repo.py:135-137): shorthand `owner/repo`
(exactly one slash) gets the default GitHub host prepended. -/
def githubPostInit (github_url : String) : String :=
  if countChar github_url '/' = 1 then "https://github.com/" ++ github_url else github_url

/-- `GithubRepoConfig` (repo.py:117-182).  Pydantic runs `model_post_init` at
construction time, so `mkGithubRepoConfig` below is the faithful constructor. -/
structure GithubRepoConfig where
  github_url : String
  base_commit : String := "HEAD"

def mkGithubRepoConfig (github_url : String) (base_commit : String := "HEAD") :
    GithubRepoConfig :=
  { github_url := githubPostInit github_url, base_commit }

def GithubRepoConfig.get_reset_commands (c : GithubRepoConfig) : List String :=
  _get_git_reset_commands c.base_commit

/-- `GitlabRepoConfig.model_post_init` (repo.py:203-207): shorthand gets the
default GitLab host prepended unless it starts with `http` or `git@`. -/
def gitlabPostInit (gitlab_url : String) : String :=
  if countChar gitlab_url '/' = 1 && !strStartsWith gitlab_url "http"
      && !strStartsWith gitlab_url "git@" then
    "https://gitlab.com/" ++ gitlab_url
  else gitlab_url

/-- `GitlabRepoConfig` (repo.py:185-289). -/
structure GitlabRepoConfig where
  gitlab_url : String
  base_commit : String := "HEAD"

def mkGitlabRepoConfig (gitlab_url : String) (base_commit : String := "HEAD") :
    GitlabRepoConfig :=
  { gitlab_url := gitlabPostInit gitlab_url, base_commit }

def GitlabRepoConfig.get_reset_commands (c : GitlabRepoConfig) : List String :=
  _get_git_reset_commands c.base_commit

/-! ## gitlab.py: API client headers -/

/-- Python `str.lower()`, modelled as character-wise ASCII lowering
(identical to Python on the token-type keywords compared against below). -/
def pyLower (s : String) : String := ⟨s.data.map Char.toLower⟩

/-- Header construction in `_get_gitlab_api_client` (gitlab.py:98-104). -/
def gitlabApiHeaders (token : String) (token_type : String) : List (String × String) :=
  if token ≠ "" then
    if pyLower token_type ∈ (["private", "personal", "project", "group"] : List String) then
      [("PRIVATE-TOKEN", token)]
    else
      [("Authorization", "Bearer " ++ token)]
  else []

/-! ## open_pr.py / open_pr_gitlab.py: PR/MR guards -/

/-- The fields of a fetched GitHub issue consulted by `should_open_pr`
(open_pr.py:396-404).  `assignee` is the truthiness of the assignee field. -/
structure GhIssue where
  state : String
  assignee : Bool
  locked : Bool

/-- The fields of a fetched GitLab issue consulted by `should_open_pr`
(open_pr.py:435-444) and `should_open_mr` (open_pr_gitlab.py:234-243). -/
structure GlIssue where
  state : String
  assignee : Bool
  discussion_locked : Bool

/-- The GitHub branch of `OpenPRHook.should_open_pr` (open_pr.py:393-421),
once the issue data and associated-commit list have been fetched. -/
def ghIssueChecks (issue : GhIssue) (associated_commits : List String)
    (skip_if_commits_reference_issue : Bool) : Bool :=
  if issue.state ≠ "open" then false
  else if issue.assignee then false
  else if issue.locked then false
  else if !associated_commits.isEmpty then
    (if skip_if_commits_reference_issue then false else true)
  else true

/-- The GitLab branch of `OpenPRHook.should_open_pr` (open_pr.py:426-468) and
the body of `OpenMRHook.should_open_mr` (open_pr_gitlab.py:226-267): GitLab
reports open issues with state `"opened"`. -/
def glIssueChecks (issue : GlIssue) (associated_commits : List String)
    (skip_if_commits_reference_issue : Bool) : Bool :=
  if issue.state ≠ "opened" then false
  else if issue.assignee then false
  else if issue.discussion_locked then false
  else if !associated_commits.isEmpty then
    (if skip_if_commits_reference_issue then false else true)
  else true

/-- Outcome of resolving and fetching the problem statement's issue URL.
The HTTP fetch itself is an external collaborator; its payload is passed in. -/
inductive IssueFetch where
  | github : GhIssue → List String → IssueFetch
  | gitlab : GlIssue → List String → IssueFetch

/-- `OpenPRHook.should_open_pr` (open_pr.py:371-473).  `submission` is the
truthiness of `result.info.get("submission")`; `fetch = none` covers a missing
problem-statement URL and a URL that is neither a GitHub nor GitLab issue URL
(both return `False` in the source). -/
def should_open_pr (submission : Bool) (exit_status : Option String)
    (fetch : Option IssueFetch) (skip_if_commits_reference_issue : Bool) : Bool :=
  if !submission then false
  else if exit_status ≠ some "submitted" then false
  else
    match fetch with
    | none => false
    | some (.github issue commits) => ghIssueChecks issue commits skip_if_commits_reference_issue
    | some (.gitlab issue commits) => glIssueChecks issue commits skip_if_commits_reference_issue

/-- `OpenMRHook.should_open_mr` (open_pr_gitlab.py:202-270); GitLab only. -/
def should_open_mr (submission : Bool) (exit_status : Option String)
    (fetch : Option (GlIssue × List String))
    (skip_if_commits_reference_issue : Bool) : Bool :=
  if !submission then false
  else if exit_status ≠ some "submitted" then false
  else
    match fetch with
    | none => false
    | some (issue, commits) => glIssueChecks issue commits skip_if_commits_reference_issue

/-! ## open_pr.py / open_pr_gitlab.py: commit messages and branch names -/

/-- `shlex.quote`'s safe-character set: ASCII alphanumerics, underscore,
and the punctuation `@ % + = : , . / -`. -/
def shlexSafe (c : Char) : Bool :=
  c.isAlphanum || c == '_' || ("@%+=:,./-".data.contains c)

/-- Python `shlex.quote`. -/
def shlexQuote (s : String) : String :=
  if s = "" then "''"
  else if s.data.all shlexSafe then s
  else "'" ++ ⟨s.data.flatMap (fun c => if c == Char.ofNat 39 then "'\"'\"'".data else [c])⟩ ++ "'"

/-- The two `-m` message arguments built in `open_github_pr`
(open_pr.py:109-112).  The source strings lack the `f` prefix, so the braces
are literal text: the issue title and number are NOT interpolated. -/
def gh_commit_messages : String × String :=
  ("Fix: \x7bissue.title\x7d", "Closes #\x7bissue.number\x7d")

/-- The two `-m` message arguments built in `open_gitlab_mr`
(open_pr.py:212-215) and `open_mr` (open_pr_gitlab.py:64-67); these are
f-strings, so title and number are interpolated. -/
def mr_commit_messages (issue_title issue_number : String) : String × String :=
  ("Fix: " ++ issue_title, "Closes #" ++ issue_number)

/-- `dry_run_flag` (open_pr.py:108, open_pr_gitlab.py:63). -/
def dry_run_flag (dry_run : Bool) : String := if dry_run then "--allow-empty" else ""

/-- The full `git commit` command of `open_github_pr` (open_pr.py:113-118);
note the doubled space after the second `-m` in the source f-string. -/
def gh_commit_command (dry_run : Bool) : String :=
  "git commit -m " ++ shlexQuote gh_commit_messages.1 ++ " -m  "
    ++ shlexQuote gh_commit_messages.2 ++ " " ++ dry_run_flag dry_run

/-- The full `git commit` command of the GitLab paths (open_pr.py:216-221,
open_pr_gitlab.py:68-73). -/
def mr_commit_command (issue_title issue_number : String) (dry_run : Bool) : String :=
  "git commit -m " ++ shlexQuote (mr_commit_messages issue_title issue_number).1 ++ " -m "
    ++ shlexQuote (mr_commit_messages issue_title issue_number).2 ++ " " ++ dry_run_flag dry_run

/-! ## gitlab.py: URL regular expressions

`GITLAB_ISSUE_URL_PATTERN` (gitlab.py:8) captures a lazy group 1, then two
slash-separated non-slash runs (groups 2 and 3), then the literal segment
"slash dash slash issues slash", then digits (group 4); it is used with
`re.search`.  The embedding below replays Python's
backtracking order exactly: starts are tried left to right; at each start the
lazy group 1 grows one (non-newline) character at a time; the remaining groups
are greedy runs followed by mandatory literal characters, which makes them
deterministic (shortening a greedy run always exposes a character that cannot
match the required literal). -/

/-- The code-point ranges of the Unicode decimal digits (category Nd): the
characters matched by Python's `\\d` in a str pattern without `re.ASCII`. -/
def pyDigitRanges : List (Nat × Nat) :=
  [(48, 57), (1632, 1641), (1776, 1785), (1984, 1993), (2406, 2415), (2534,
   2543), (2662, 2671), (2790, 2799), (2918, 2927), (3046, 3055), (3174,
   3183), (3302, 3311), (3430, 3439), (3558, 3567), (3664, 3673), (3792,
   3801), (3872, 3881), (4160, 4169), (4240, 4249), (6112, 6121), (6160,
   6169), (6470, 6479), (6608, 6617), (6784, 6793), (6800, 6809), (6992,
   7001), (7088, 7097), (7232, 7241), (7248, 7257), (42528, 42537), (43216,
   43225), (43264, 43273), (43472, 43481), (43504, 43513), (43600, 43609),
   (44016, 44025), (65296, 65305), (66720, 66729), (68912, 68921), (69734,
   69743), (69872, 69881), (69942, 69951), (70096, 70105), (70384, 70393),
   (70736, 70745), (70864, 70873), (71248, 71257), (71360, 71369), (71472,
   71481), (71904, 71913), (72016, 72025), (72784, 72793), (73040, 73049),
   (73120, 73129), (92768, 92777), (92864, 92873), (93008, 93017), (120782,
   120831), (123200, 123209), (123632, 123641), (125264, 125273), (130032,
   130041)]

/-- Python regex `\\d`: a Unicode decimal digit. -/
def isPyDigit (c : Char) : Bool :=
  pyDigitRanges.any (fun p => p.1 ≤ c.toNat && c.toNat ≤ p.2)

/-- Match everything of the issue pattern after the lazy group 1 (the two
non-slash runs, the literal "slash dash slash issues slash" segment, and the
digit run) at the current position; `re.search` leaves the tail after the
digits unconstrained. -/
def issueTail (cs : List Char) : Option (List Char × List Char × List Char) :=
  match cs with
  | '/' :: r1 =>
    match r1.span (fun c => c != '/') with
    | (g2, '/' :: r2) =>
      if g2.isEmpty then none
      else
        match r2.span (fun c => c != '/') with
        | (g3, '/' :: '-' :: '/' :: 'i' :: 's' :: 's' :: 'u' :: 'e' :: 's' :: '/' :: r3) =>
          if g3.isEmpty then none
          else
            let g4 := r3.takeWhile isPyDigit
            if g4.isEmpty then none else some (g2, g3, g4)
        | _ => none
    | _ => none
  | _ => none

/-- Lazy expansion of group 1 at a fixed start: try the tail first, then—if the
next character is not a newline (`.` does not match `\n`)—absorb it into
group 1 and retry. -/
def issueG1 (acc : List Char) : List Char →
    Option (List Char × List Char × List Char × List Char)
  | [] => (issueTail []).map (fun (g2, g3, g4) => (acc.reverse, g2, g3, g4))
  | c :: rest =>
    match issueTail (c :: rest) with
    | some (g2, g3, g4) => some (acc.reverse, g2, g3, g4)
    | none => if c == '\n' then none else issueG1 (c :: acc) rest

/-- `re.search` with the issue pattern: try each start position left to right. -/
def issueSearchAux : List Char → Option (List Char × List Char × List Char × List Char)
  | [] => issueG1 [] []
  | c :: rest =>
    match issueG1 [] (c :: rest) with
    | some r => some r
    | none => issueSearchAux rest

/-- `GITLAB_ISSUE_URL_PATTERN.search(s)`, returning the four captured groups. -/
def pyIssueSearch (s : String) : Option (String × String × String × String) :=
  match issueSearchAux s.data with
  | some (g1, g2, g3, g4) => some (⟨g1⟩, ⟨g2⟩, ⟨g3⟩, ⟨g4⟩)
  | none => none

/-- `_is_gitlab_issue_url` (gitlab.py:35-37). -/
def _is_gitlab_issue_url (data_path : String) : Bool := (pyIssueSearch data_path).isSome

/-- `_parse_gitlab_issue_url` (gitlab.py:45-62): the four match groups on
success, `InvalidGitlabURL` (modelled as `Except.error` with the source's
message) when the pattern does not match. -/
def _parse_gitlab_issue_url (issue_url : String) :
    Except String (String × String × String × String) :=
  match pyIssueSearch issue_url with
  | some groups => .ok groups
  | none => .error ("Invalid GitLab issue URL: " ++ issue_url)

/-!
`GITLAB_REPO_URL_PATTERN` (gitlab.py:10) is
`(?:(https?)://|git@)([^ slash colon]+)(?::|/)([^ slash]+)/([^ slash newline]+?)(?:\.git)?$`
used with `re.search`.  Again every greedy run is followed by a mandatory
literal, so only the lazy final group and the start position need searching.
Without `re.MULTILINE`, `$` matches at the end of the string or just before a
trailing newline. -/

/-- `$` without `re.MULTILINE`. -/
def endOk : List Char → Bool
  | [] => true
  | ['\n'] => true
  | _ => false

/-- `(?:\.git)?$`: optionally consume a literal `.git`, then `$`. -/
def gitEnd (cs : List Char) : Bool :=
  match cs with
  | '.' :: 'g' :: 'i' :: 't' :: rest => endOk rest || endOk cs
  | _ => endOk cs

/-- Lazy group 4 `([^ slash newline]+?)` followed by `(?:\.git)?$`: grow the
capture one character at a time (characters may not be `/` or a newline) and
after each step first try to close with `.git$`, then with `$` alone. -/
def g4Lazy (acc : List Char) : List Char → Option (List Char)
  | [] => none
  | c :: rest =>
    if c == '/' || c == '\n' then none
    else if gitEnd rest then some (c :: acc).reverse
    else g4Lazy (c :: acc) rest

/-- `(?:(https?)://|git@)` at the current position: the branches are mutually
exclusive on any given text, so this is deterministic.  Returns the remainder. -/
def stripProto (cs : List Char) : Option (List Char) :=
  if isPrefixList "https://".data cs then some (cs.drop 8)
  else if isPrefixList "http://".data cs then some (cs.drop 7)
  else if isPrefixList "git@".data cs then some (cs.drop 4)
  else none

/-- Match the whole repo pattern at the current position, returning groups
2-4 (instance host, owner, repo); group 1 (the protocol) is unused by the
source (`_parse_gitlab_repo_url` skips it). -/
def repoAt (cs : List Char) : Option (List Char × List Char × List Char) :=
  match stripProto cs with
  | none => none
  | some r0 =>
    match r0.span (fun c => c != '/' && c != ':') with
    | (g2, sep :: r1) =>
      if g2.isEmpty then none
      else if sep == ':' || sep == '/' then
        match r1.span (fun c => c != '/') with
        | (g3, '/' :: r2) =>
          if g3.isEmpty then none
          else
            match g4Lazy [] r2 with
            | some g4 => some (g2, g3, g4)
            | none => none
        | _ => none
      else none
    | _ => none

/-- `re.search` with the repo pattern. -/
def repoSearchAux : List Char → Option (List Char × List Char × List Char)
  | [] => repoAt []
  | c :: rest =>
    match repoAt (c :: rest) with
    | some r => some r
    | none => repoSearchAux rest

/-- `GITLAB_REPO_URL_PATTERN.search(s)` reduced to groups 2-4. -/
def pyRepoSearch (s : String) : Option (String × String × String) :=
  match repoSearchAux s.data with
  | some (g2, g3, g4) => some (⟨g2⟩, ⟨g3⟩, ⟨g4⟩)
  | none => none

/-- `_is_gitlab_repo_url` (gitlab.py:28-32). -/
def _is_gitlab_repo_url (data_path : String) : Bool := (pyRepoSearch data_path).isSome

/-! ## repo.py: `repo_from_simplified_input` -/

/-- The four `RepoConfig` variants as returned by `repo_from_simplified_input`
(repo.py:295-323); the URL-carrying variants hold the URL after
`model_post_init` normalization. -/
inductive SimplifiedRepo where
  | github (github_url : String)
  | gitlab (gitlab_url : String)
  | localPath (path : String)
  | preexisting (repo_name : String)
deriving DecidableEq

/-- The `type == "auto"` branch of `repo_from_simplified_input`
(repo.py:313-321). -/
def repoFromSimplifiedAuto (input : String) : SimplifiedRepo :=
  if strStartsWith input "https://github.com/" || strStartsWith input "git@github.com" then
    .github (githubPostInit input)
  else if strStartsWith input "https://gitlab.com/" || strStartsWith input "git@gitlab.com"
      || _is_gitlab_repo_url input then
    .gitlab (gitlabPostInit input)
  else
    .localPath input

/-- `repo_from_simplified_input` (repo.py:295-323); `none` models the
`ValueError` on an unknown type. -/
def repo_from_simplified_input (input : String) (type : String) : Option SimplifiedRepo :=
  if type = "local" then some (.localPath input)
  else if type = "github" then some (.github (githubPostInit input))
  else if type = "gitlab" then some (.gitlab (gitlabPostInit input))
  else if type = "preexisting" then some (.preexisting input)
  else if type = "auto" then some (repoFromSimplifiedAuto input)
  else none

/-- `branch_name` (open_pr.py:96, open_pr.py:199, open_pr_gitlab.py:51):
`f"swe-agent-fix-#{issue.number}-" + str(random.random())[2:10]`.
`rand_str` stands for `str(random.random())`, the decimal representation of
the drawn float. -/
def branch_name (issue_number : String) (rand_str : String) : String :=
  "swe-agent-fix-#" ++ issue_number ++ "-" ++ pySlice rand_str 2 10

/-! ## open_pr.py: trajectory markdown formatting

`format_trajectory_markdown` (open_pr.py:480-503) and its twin in
open_pr_gitlab.py (identical up to the emoji in two label strings) embed each
step's observation between triple-backtick fence lines, after
`_remove_triple_backticks` (open_pr.py:476-477) and Python's `str.strip`.
The Python string primitives `splitlines` and `strip` are modelled at the
character-list level. -/

/-- The line-boundary characters of Python `str.splitlines`. -/
def isBoundaryChar (c : Char) : Bool :=
  c == '\n' || c == '\r' || c == '\x0b' || c == '\x0c'
    || c == '\x1c' || c == '\x1d' || c == '\x1e' || c == '\x85'
    || c == '\u2028' || c == '\u2029'

/-- The whitespace characters stripped by Python `str.strip()` (characters for
which `str.isspace()` holds): every `splitlines` boundary character, plus
horizontal/vertical spacing characters. -/
def isPyWS (c : Char) : Bool :=
  isBoundaryChar c || c == ' ' || c == '\t' || c == '\x1f' || c == '\xa0'
    || c == '\u1680' || c == '\u2000' || c == '\u2001' || c == '\u2002'
    || c == '\u2003' || c == '\u2004' || c == '\u2005' || c == '\u2006'
    || c == '\u2007' || c == '\u2008' || c == '\u2009' || c == '\u200a'
    || c == '\u202f' || c == '\u205f' || c == '\u3000'

/-- Worker for `str.splitlines`: `cur` holds the current line reversed, and
`skipLF` records that the previous character was a carriage return, so that an
immediately following line feed is part of the same `\r\n` boundary.  A final
line is emitted only if nonempty (a trailing boundary produces no empty final
line). -/
def splitAux (skipLF : Bool) (cur : List Char) : List Char → List (List Char)
  | [] => if cur.isEmpty then [] else [cur.reverse]
  | c :: rest =>
    if skipLF && c == '\n' then splitAux false cur rest
    else if c == '\r' then cur.reverse :: splitAux true [] rest
    else if isBoundaryChar c then cur.reverse :: splitAux false [] rest
    else splitAux false (c :: cur) rest

/-- Python `str.splitlines()`. -/
def pySplitlines (s : List Char) : List (List Char) := splitAux false [] s

/-- Python `line.removeprefix("```")`: drop one leading triple backtick. -/
def rmFence : List Char → List Char
  | '`' :: '`' :: '`' :: rest => rest
  | l => l

/-- `"\n".join(lines)`. -/
def joinNL : List (List Char) → List Char
  | [] => []
  | [l] => l
  | l :: ls => l ++ '\n' :: joinNL ls

/-- `_remove_triple_backticks` (open_pr.py:476-477, open_pr_gitlab.py:273-274):
split into lines, drop one leading triple backtick per line, re-join with
newlines. -/
def removeTripleBackticks (text : List Char) : List Char :=
  joinNL ((pySplitlines text).map rmFence)

/-- Python `str.strip()`: drop leading and trailing whitespace. -/
def pyStripL (l : List Char) : List Char :=
  ((l.dropWhile isPyWS).reverse.dropWhile isPyWS).reverse

/-- String-level `str.strip()`. -/
def pyStrip (s : String) : String := ⟨pyStripL s.data⟩

/-- The observation content placed between the fence lines of a step
(open_pr.py:495): `_remove_triple_backticks(step["observation"]).strip()`. -/
def embeddedObservation (obs : List Char) : List Char :=
  pyStripL (removeTripleBackticks obs)

/-- Does a line start with a triple backtick (and hence close/confuse the
surrounding markdown fence)? -/
def isFenceLine (l : List Char) : Bool := isPrefixList ['`', '`', '`'] l

/-- A character list free of `splitlines` boundary characters (the shape of
every line produced by `pySplitlines`). -/
def NoBoundary (l : List Char) : Prop := ∀ c ∈ l, isBoundaryChar c = false

/-- Drop trailing Python whitespace (the right half of `str.strip()`). -/
def dropTrail (l : List Char) : List Char := (l.reverse.dropWhile isPyWS).reverse

/-- The four shapes a line of the stripped, re-joined text can take relative
to a line `l₀` of the unstripped text: unchanged, left-stripped,
right-stripped, or stripped on both sides. -/
def StripVariant (l₀ m : List Char) : Prop :=
  m = l₀ ∨ m = l₀.dropWhile isPyWS ∨ m = dropTrail l₀
    ∨ m = dropTrail (l₀.dropWhile isPyWS)

/-- One step of a trajectory: the agent's response and the observation. -/
structure TrajStep where
  response : String
  observation : String

/-- The block built for step `i` (open_pr.py:490-497). -/
def stepMarkdown (i : Nat) (step : TrajStep) : String :=
  String.intercalate "\n"
    ["**🧑‍🚒 Response (" ++ toString i ++ ")**: ",
     pyStrip step.response,
     "**👀‍ Observation (" ++ toString i ++ ")**:",
     "```",
     ⟨embeddedObservation step.observation.data⟩,
     "```"]

/-- `format_trajectory_markdown` (open_pr.py:480-503): header, the steps
joined by a horizontal rule, and the closing of the collapsible section. -/
def format_trajectory_markdown (trajectory : List TrajStep) : String :=
  let pre := String.intercalate "\n"
    ["<details>",
     "<summary>Thought process ('trajectory') of SWE-agent (click to expand)</summary>",
     "",
     ""]
  let steps := (trajectory.enum.map (fun p => stepMarkdown p.1 p.2))
  let suf := String.intercalate "\n" ["", "</details>"]
  pre ++ String.intercalate "\n\n---\n\n" steps ++ suf

/-! ## problem_statement.py: `TextProblemStatement` ids via SHA-256

`model_post_init` (problem_statement.py:55-58) sets
`id = hashlib.sha256(text.encode()).hexdigest()[:6]` when no id was supplied.
`hashlib.sha256` is the standard SHA-256; it is implemented below over byte
lists, with 32-bit words as `Nat` reduced mod `2^32`. -/

/-- Truncate to a 32-bit word. -/
def w32 (n : Nat) : Nat := n % 4294967296

/-- 32-bit rotate right.  For `x < 2^32` the two shifted parts occupy
disjoint bit ranges, so their sum is their bitwise or. -/
def rotr32 (n x : Nat) : Nat := w32 (x / 2 ^ n + x * 2 ^ (32 - n))

/-- Bitwise and, structurally recursive on a bit-count fuel so that it
evaluates inside the kernel; `bitsAnd 32` is bitwise and on 32-bit words. -/
def bitsAnd : Nat → Nat → Nat → Nat
  | 0, _, _ => 0
  | f + 1, x, y => x % 2 * (y % 2) + 2 * bitsAnd f (x / 2) (y / 2)

/-- Bitwise exclusive or, structurally recursive on a bit-count fuel. -/
def bitsXor : Nat → Nat → Nat → Nat
  | 0, _, _ => 0
  | f + 1, x, y => (x % 2 + y % 2) % 2 + 2 * bitsXor f (x / 2) (y / 2)

/-- 32-bit bitwise and. -/
def land32 (x y : Nat) : Nat := bitsAnd 32 x y

/-- 32-bit bitwise exclusive or. -/
def lxor32 (x y : Nat) : Nat := bitsXor 32 x y

/-- 32-bit bitwise complement (for `x < 2^32`). -/
def comp32 (x : Nat) : Nat := 4294967295 - x

/-- UTF-8 encoding of one character (Python `str.encode()`). -/
def utf8Char (c : Char) : List Nat :=
  let n := c.toNat
  if n < 128 then [n]
  else if n < 2048 then [192 + n / 64, 128 + n % 64]
  else if n < 65536 then [224 + n / 4096, 128 + n / 64 % 64, 128 + n % 64]
  else [240 + n / 262144, 128 + n / 4096 % 64, 128 + n / 64 % 64, 128 + n % 64]

/-- UTF-8 encoding of a string as a byte list. -/
def utf8Bytes (s : String) : List Nat := (s.data.map utf8Char).flatten

/-- The SHA-256 round constants. -/
def shaK : List Nat :=
  [0x428a2f98, 0x71374491, 0xb5c0fbcf, 0xe9b5dba5, 0x3956c25b, 0x59f111f1,
   0x923f82a4, 0xab1c5ed5, 0xd807aa98, 0x12835b01, 0x243185be, 0x550c7dc3,
   0x72be5d74, 0x80deb1fe, 0x9bdc06a7, 0xc19bf174, 0xe49b69c1, 0xefbe4786,
   0x0fc19dc6, 0x240ca1cc, 0x2de92c6f, 0x4a7484aa, 0x5cb0a9dc, 0x76f988da,
   0x983e5152, 0xa831c66d, 0xb00327c8, 0xbf597fc7, 0xc6e00bf3, 0xd5a79147,
   0x06ca6351, 0x14292967, 0x27b70a85, 0x2e1b2138, 0x4d2c6dfc, 0x53380d13,
   0x650a7354, 0x766a0abb, 0x81c2c92e, 0x92722c85, 0xa2bfe8a1, 0xa81a664b,
   0xc24b8b70, 0xc76c51a3, 0xd192e819, 0xd6990624, 0xf40e3585, 0x106aa070,
   0x19a4c116, 0x1e376c08, 0x2748774c, 0x34b0bcb5, 0x391c0cb3, 0x4ed8aa4a,
   0x5b9cca4f, 0x682e6ff3, 0x748f82ee, 0x78a5636f, 0x84c87814, 0x8cc70208,
   0x90befffa, 0xa4506ceb, 0xbef9a3f7, 0xc67178f2]

/-- The SHA-256 initial hash value. -/
def shaH0 : List Nat :=
  [0x6a09e667, 0xbb67ae85, 0x3c6ef372, 0xa54ff53a,
   0x510e527f, 0x9b05688c, 0x1f83d9ab, 0x5be0cd19]

/-- The eight big-endian length bytes of the bit length. -/
def lenBytes (n : Nat) : List Nat :=
  [n / 2 ^ 56 % 256, n / 2 ^ 48 % 256, n / 2 ^ 40 % 256, n / 2 ^ 32 % 256,
   n / 2 ^ 24 % 256, n / 2 ^ 16 % 256, n / 2 ^ 8 % 256, n % 256]

/-- SHA-256 padding: a `0x80` byte, zeros to 56 mod 64, the bit length. -/
def padBytes (msg : List Nat) : List Nat :=
  msg ++ 128 :: List.replicate ((119 - msg.length % 64) % 64) 0
    ++ lenBytes (8 * msg.length)

/-- Big-endian bytes to 32-bit words. -/
def toWordsBE : List Nat → List Nat
  | b0 :: b1 :: b2 :: b3 :: rest =>
    (((b0 * 256 + b1) * 256 + b2) * 256 + b3) :: toWordsBE rest
  | _ => []

/-- Split a word list into 16-word blocks (padded input is always a multiple
of 16 words). -/
def toBlocks : List Nat → List (List Nat)
  | w0 :: w1 :: w2 :: w3 :: w4 :: w5 :: w6 :: w7
      :: w8 :: w9 :: w10 :: w11 :: w12 :: w13 :: w14 :: w15 :: rest =>
    [w0, w1, w2, w3, w4, w5, w6, w7, w8, w9, w10, w11, w12, w13, w14, w15]
      :: toBlocks rest
  | _ => []

/-- The small sigma functions of the message schedule. -/
def sigma0 (x : Nat) : Nat := lxor32 (lxor32 (rotr32 7 x) (rotr32 18 x)) (x / 2 ^ 3)

def sigma1 (x : Nat) : Nat := lxor32 (lxor32 (rotr32 17 x) (rotr32 19 x)) (x / 2 ^ 10)

/-- Extend a 16-word block to the 64-word message schedule. -/
def extendSchedule (block : List Nat) : List Nat :=
  (List.range 48).foldl
    (fun w _ =>
      w ++ [w32 (sigma1 (w.getD (w.length - 2) 0) + w.getD (w.length - 7) 0
        + sigma0 (w.getD (w.length - 15) 0) + w.getD (w.length - 16) 0)])
    block

/-- One SHA-256 compression round on the state `[a,b,c,d,e,f,g,h]`. -/
def shaRound (st : List Nat) (kw : Nat × Nat) : List Nat :=
  match st with
  | [a, b, c, d, e, f, g, h] =>
    let bigS1 := lxor32 (lxor32 (rotr32 6 e) (rotr32 11 e)) (rotr32 25 e)
    let ch := lxor32 (land32 e f) (land32 (comp32 e) g)
    let t1 := w32 (h + bigS1 + ch + kw.1 + kw.2)
    let bigS0 := lxor32 (lxor32 (rotr32 2 a) (rotr32 13 a)) (rotr32 22 a)
    let mj := lxor32 (lxor32 (land32 a b) (land32 a c)) (land32 b c)
    let t2 := w32 (bigS0 + mj)
    [w32 (t1 + t2), a, b, c, w32 (d + t1), e, f, g]
  | st => st

/-- Compress one block into the running hash. -/
def compressBlock (h : List Nat) (block : List Nat) : List Nat :=
  let st := ((shaK.zip (extendSchedule block)).foldl shaRound h)
  List.zipWith (fun a b => w32 (a + b)) h st

/-- A 32-bit word as four big-endian bytes. -/
def wordBytesBE (w : Nat) : List Nat :=
  [w / 2 ^ 24 % 256, w / 2 ^ 16 % 256, w / 2 ^ 8 % 256, w % 256]

/-- SHA-256 of a byte list, as the 32 digest bytes. -/
def sha256 (msg : List Nat) : List Nat :=
  (((toBlocks (toWordsBE (padBytes msg))).foldl compressBlock shaH0).map wordBytesBE).flatten

/-- One lowercase hex digit. -/
def hexChar (n : Nat) : Char := "0123456789abcdef".data.getD n '0'

/-- Lowercase hex digest of a byte list (Python `hexdigest()`). -/
def hexDigest (bytes : List Nat) : String :=
  ⟨(bytes.map (fun b => [hexChar (b / 16), hexChar (b % 16)])).flatten⟩

/-- `hashlib.sha256(t.encode()).hexdigest()[:6]`. -/
def sha256Hex6 (t : String) : String := pySlice (hexDigest (sha256 (utf8Bytes t))) 0 6

/-- `TextProblemStatement` (problem_statement.py:40-70); only the fields the
claims need. -/
structure TextProblemStatement where
  text : String
  id : String

/-- Construction of a `TextProblemStatement`, including `model_post_init`
(problem_statement.py:55-58): a missing id becomes the first six hex
characters of the SHA-256 of the text. -/
def mkTextProblemStatement (text : String) (id : Option String) : TextProblemStatement :=
  { text
    id := match id with
      | some i => i
      | none => sha256Hex6 text }

/-! ## Theorems -/

/-- `(s ++ t).data` unfolds to the concatenation of the character lists. -/
theorem data_append (s t : String) : (s ++ t).data = s.data ++ t.data := by
  cases s; cases t; rfl

/-- C1: for every repo-config variant (pre-existing, local, GitHub, GitLab)
and every `base_commit` string, `get_reset_commands()` returns exactly the
four-element list `["git status", "git restore .", "git reset --hard <b>",
"git clean -fdq"]`, in that order, parameterized only by the base commit. -/
theorem c1_get_reset_commands :
    (∀ c : PreExistingRepoConfig, c.get_reset_commands =
      ["git status", "git restore .", "git reset --hard " ++ c.base_commit, "git clean -fdq"])
    ∧ (∀ c : LocalRepoConfig, c.get_reset_commands =
      ["git status", "git restore .", "git reset --hard " ++ c.base_commit, "git clean -fdq"])
    ∧ (∀ c : GithubRepoConfig, c.get_reset_commands =
      ["git status", "git restore .", "git reset --hard " ++ c.base_commit, "git clean -fdq"])
    ∧ (∀ c : GitlabRepoConfig, c.get_reset_commands =
      ["git status", "git restore .", "git reset --hard " ++ c.base_commit, "git clean -fdq"]) :=
  ⟨fun _ => rfl, fun _ => rfl, fun _ => rfl, fun _ => rfl⟩

/-- The GitHub issue checks return `false` under any of the four skip
conditions. -/
theorem ghIssueChecks_false (i : GhIssue) (commits : List String) (skip : Bool)
    (h : i.state ≠ "open" ∨ i.assignee = true ∨ i.locked = true
      ∨ (commits ≠ [] ∧ skip = true)) :
    ghIssueChecks i commits skip = false := by
  unfold ghIssueChecks
  rcases h with h | h | h | ⟨h1, h2⟩ <;> simp_all [List.isEmpty_iff]

/-- The GitHub issue checks return `true` for an open, unassigned, unlocked
issue with no associated commits. -/
theorem ghIssueChecks_true (i : GhIssue) (skip : Bool)
    (h1 : i.state = "open") (h2 : i.assignee = false) (h3 : i.locked = false) :
    ghIssueChecks i [] skip = true := by
  simp [ghIssueChecks, h1, h2, h3]

/-- The GitLab issue checks return `false` under any of the four skip
conditions. -/
theorem glIssueChecks_false (i : GlIssue) (commits : List String) (skip : Bool)
    (h : i.state ≠ "opened" ∨ i.assignee = true ∨ i.discussion_locked = true
      ∨ (commits ≠ [] ∧ skip = true)) :
    glIssueChecks i commits skip = false := by
  unfold glIssueChecks
  rcases h with h | h | h | ⟨h1, h2⟩ <;> simp_all [List.isEmpty_iff]

/-- The GitLab issue checks return `true` for an open, unassigned, unlocked
issue with no associated commits. -/
theorem glIssueChecks_true (i : GlIssue) (skip : Bool)
    (h1 : i.state = "opened") (h2 : i.assignee = false) (h3 : i.discussion_locked = false) :
    glIssueChecks i [] skip = true := by
  simp [glIssueChecks, h1, h2, h3]

/-- C2: given a submission with exit status "submitted" and a successfully
fetched issue, `should_open_pr` and `should_open_mr` return `false` whenever
the issue's state is not open (GitHub `"open"`, GitLab `"opened"`), or an
assignee is set, or it is locked / discussion-locked, or associated commits
exist while `skip_if_commits_reference_issue` is true; and they return `true`
for an open, unassigned, unlocked issue with no associated commits. -/
theorem c2_should_open_guards :
    (∀ (i : GhIssue) (commits : List String) (skip : Bool),
      (i.state ≠ "open" ∨ i.assignee = true ∨ i.locked = true
        ∨ (commits ≠ [] ∧ skip = true)) →
      should_open_pr true (some "submitted") (some (.github i commits)) skip = false)
    ∧ (∀ (i : GhIssue) (skip : Bool),
      i.state = "open" → i.assignee = false → i.locked = false →
      should_open_pr true (some "submitted") (some (.github i [])) skip = true)
    ∧ (∀ (i : GlIssue) (commits : List String) (skip : Bool),
      (i.state ≠ "opened" ∨ i.assignee = true ∨ i.discussion_locked = true
        ∨ (commits ≠ [] ∧ skip = true)) →
      should_open_pr true (some "submitted") (some (.gitlab i commits)) skip = false)
    ∧ (∀ (i : GlIssue) (skip : Bool),
      i.state = "opened" → i.assignee = false → i.discussion_locked = false →
      should_open_pr true (some "submitted") (some (.gitlab i [])) skip = true)
    ∧ (∀ (i : GlIssue) (commits : List String) (skip : Bool),
      (i.state ≠ "opened" ∨ i.assignee = true ∨ i.discussion_locked = true
        ∨ (commits ≠ [] ∧ skip = true)) →
      should_open_mr true (some "submitted") (some (i, commits)) skip = false)
    ∧ (∀ (i : GlIssue) (skip : Bool),
      i.state = "opened" → i.assignee = false → i.discussion_locked = false →
      should_open_mr true (some "submitted") (some (i, [])) skip = true) :=
  ⟨fun i commits skip h => ghIssueChecks_false i commits skip h,
   fun i skip h1 h2 h3 => ghIssueChecks_true i skip h1 h2 h3,
   fun i commits skip h => glIssueChecks_false i commits skip h,
   fun i skip h1 h2 h3 => glIssueChecks_true i skip h1 h2 h3,
   fun i commits skip h => glIssueChecks_false i commits skip h,
   fun i skip h1 h2 h3 => glIssueChecks_true i skip h1 h2 h3⟩

/-- C2 witness: concrete instantiations of the guard theorem. -/
theorem c2_witness :
    should_open_pr true (some "submitted")
      (some (.github ⟨"closed", false, false⟩ [])) true = false
    ∧ should_open_pr true (some "submitted")
      (some (.github ⟨"open", false, false⟩ [])) true = true
    ∧ should_open_mr true (some "submitted")
      (some (⟨"opened", false, false⟩, ["c1"])) true = false
    ∧ should_open_mr true (some "submitted")
      (some (⟨"opened", false, false⟩, [])) true = true :=
  ⟨c2_should_open_guards.1 ⟨"closed", false, false⟩ [] true (by simp),
   c2_should_open_guards.2.1 ⟨"open", false, false⟩ true rfl rfl rfl,
   c2_should_open_guards.2.2.2.2.1 ⟨"opened", false, false⟩ ["c1"] true
     (by simp),
   c2_should_open_guards.2.2.2.2.2 ⟨"opened", false, false⟩ true rfl rfl rfl⟩

/-- C3: the GitHub PR path commits the LITERAL two-line message
"Fix: (brace)issue.title(brace)" / "Closes #(brace)issue.number(brace)" —
the source strings lack the `f` prefix, so the title and number are not
interpolated — while the GitLab MR paths do interpolate them; `--allow-empty`
is appended exactly when `_dry_run` is true. -/
theorem c3_commit_message_literal :
    gh_commit_messages = ("Fix: \x7bissue.title\x7d", "Closes #\x7bissue.number\x7d")
    ∧ gh_commit_messages.1 ≠ "Fix: Bug"
    ∧ gh_commit_messages.2 ≠ "Closes #42"
    ∧ mr_commit_messages "Bug" "42" = ("Fix: Bug", "Closes #42")
    ∧ dry_run_flag true = "--allow-empty"
    ∧ dry_run_flag false = ""
    ∧ gh_commit_command true =
      "git commit -m 'Fix: \x7bissue.title\x7d' -m  'Closes #\x7bissue.number\x7d' --allow-empty"
    ∧ mr_commit_command "Bug" "42" false = "git commit -m 'Fix: Bug' -m 'Closes #42' " := by
  decide

/-- C4: `_parse_gitlab_issue_url` applied to the gitlab.com issue URL for
repository o of owner r, issue 7, returns the four match groups
("https://gitlab.com", "o", "r", "7"), and it raises `InvalidGitlabURL`
exactly on the strings where the issue regex does not match (it returns the
4-tuple of match groups iff the regex matches). -/
theorem c4_parse_gitlab_issue_url :
    _parse_gitlab_issue_url "https://gitlab.com/o/r/-/issues/7"
      = .ok ("https://gitlab.com", "o", "r", "7")
    ∧ (∀ s : String, pyIssueSearch s = none →
      _parse_gitlab_issue_url s = .error ("Invalid GitLab issue URL: " ++ s))
    ∧ (∀ (s : String) t, _parse_gitlab_issue_url s = .ok t → pyIssueSearch s = some t) := by
  refine ⟨rfl, ?_, ?_⟩
  · intro s h
    simp [_parse_gitlab_issue_url, h]
  · intro s t h
    unfold _parse_gitlab_issue_url at h
    cases hs : pyIssueSearch s with
    | none => simp [hs] at h
    | some g => simp [hs] at h; exact congrArg some h

/-- C4 witness: a matching and a non-matching input, through the theorem. -/
theorem c4_witness :
    _parse_gitlab_issue_url "not an issue url"
      = .error ("Invalid GitLab issue URL: " ++ "not an issue url")
    ∧ pyIssueSearch "https://gitlab.com/o/r/-/issues/7"
      = some ("https://gitlab.com", "o", "r", "7") :=
  ⟨c4_parse_gitlab_issue_url.2.1 "not an issue url" (by decide),
   c4_parse_gitlab_issue_url.2.2 _ _ c4_parse_gitlab_issue_url.1⟩

/-- C5 counterexample: "http/x" contains exactly one slash — so under the
claim's definition it is a valid shorthand — yet `GitlabRepoConfig`
normalization does not prepend the default host, because the source guard
also excludes inputs starting with "http" or "git@" (repo.py:206). -/
theorem c5_counterexample :
    countChar "http/x" '/' = 1
    ∧ gitlabPostInit "http/x" = "http/x"
    ∧ gitlabPostInit "http/x" ≠ "https://gitlab.com/" ++ "http/x" := by
  decide

/-- Any string starting with the prepended GitLab host starts with "http". -/
theorem startsWith_http_of_gitlab_prepend (u : String) :
    strStartsWith ("https://gitlab.com/" ++ u) "http" = true := by
  unfold strStartsWith
  rw [data_append]
  rfl

/-- Slash counts add across string concatenation. -/
theorem countChar_append (s t : String) (c : Char) :
    countChar (s ++ t) c = countChar s c + countChar t c := by
  unfold countChar
  rw [data_append, List.count_append]

/-- C5 (amended): `GithubRepoConfig` normalization prepends the GitHub host
exactly once to every input with exactly one slash; `GitlabRepoConfig`
normalization does so for inputs with exactly one slash that do not start
with "http" or "git@"; both normalizations are idempotent as functions (in
particular an already-normalized https URL is left unchanged). -/
theorem c5_normalization_amended (u : String) :
    (countChar u '/' = 1 → githubPostInit u = "https://github.com/" ++ u)
    ∧ (countChar u '/' = 1 → strStartsWith u "http" = false →
      strStartsWith u "git@" = false → gitlabPostInit u = "https://gitlab.com/" ++ u)
    ∧ githubPostInit (githubPostInit u) = githubPostInit u
    ∧ gitlabPostInit (gitlabPostInit u) = gitlabPostInit u := by
  refine ⟨?_, ?_, ?_, ?_⟩
  · intro h
    simp [githubPostInit, h]
  · intro h1 h2 h3
    simp [gitlabPostInit, h1, h2, h3]
  · unfold githubPostInit
    by_cases h : countChar u '/' = 1
    · rw [if_pos h]
      have h3 : countChar "https://github.com/" '/' = 3 := by decide
      have hc : countChar ("https://github.com/" ++ u) '/' = 3 + countChar u '/' := by
        rw [countChar_append, h3]
      rw [if_neg (by omega)]
    · rw [if_neg h, if_neg h]
  · unfold gitlabPostInit
    by_cases h : (countChar u '/' = 1 && !strStartsWith u "http" && !strStartsWith u "git@") = true
    · rw [if_pos h]
      rw [if_neg ?_]
      rw [startsWith_http_of_gitlab_prepend]
      simp
    · rw [if_neg h, if_neg h]

/-- C5 witness: a real shorthand through both amended normalizations. -/
theorem c5_witness :
    countChar "o/r" '/' = 1
    ∧ githubPostInit "o/r" = "https://github.com/" ++ "o/r"
    ∧ gitlabPostInit "o/r" = "https://gitlab.com/" ++ "o/r" :=
  ⟨by decide, (c5_normalization_amended "o/r").1 (by decide),
   (c5_normalization_amended "o/r").2.1 (by decide) (by decide) (by decide)⟩

/-- C6: a `TextProblemStatement` constructed with no explicit id gets the
first six hex characters of the SHA-256 of its text as id; identical text
yields identical ids, and differing text yields differing ids except when the
six-character SHA-256 prefixes collide. -/
theorem c6_text_problem_statement_id :
    (∀ t : String, (mkTextProblemStatement t none).id = sha256Hex6 t)
    ∧ (∀ t u : String, t = u →
      (mkTextProblemStatement t none).id = (mkTextProblemStatement u none).id)
    ∧ (∀ t u : String, t ≠ u →
      (mkTextProblemStatement t none).id ≠ (mkTextProblemStatement u none).id
      ∨ sha256Hex6 t = sha256Hex6 u)
    ∧ (∀ t u : String, sha256Hex6 t ≠ sha256Hex6 u →
      (mkTextProblemStatement t none).id ≠ (mkTextProblemStatement u none).id) := by
  refine ⟨fun _ => rfl, fun t u h => by rw [h], ?_, fun t u h => h⟩
  intro t u _
  by_cases h : sha256Hex6 t = sha256Hex6 u
  · exact Or.inr h
  · exact Or.inl h

set_option maxRecDepth 100000 in
/-- C6 witness: two concrete texts whose SHA-256 prefixes (hence ids) differ,
evaluated through the embedded SHA-256. -/
theorem c6_witness :
    sha256Hex6 "x" ≠ sha256Hex6 "y"
    ∧ (mkTextProblemStatement "x" none).id ≠ (mkTextProblemStatement "y" none).id := by
  have h : sha256Hex6 "x" ≠ sha256Hex6 "y" := by decide
  exact ⟨h, c6_text_problem_statement_id.2.2.2 "x" "y" h⟩

/-- C8 counterexample: the branch-name suffix is `str(random.random())[2:10]`;
the draw 0.5 — a possible value of `random.random()`, whose `str` is "0.5" —
yields the one-character suffix "5", not eight random digits. -/
theorem c8_counterexample :
    branch_name "1" "0.5" = "swe-agent-fix-#1-5"
    ∧ (pySlice "0.5" 2 10).data.length = 1
    ∧ (pySlice "0.5" 2 10).data.length ≠ 8 := by
  decide

/-- C8 (amended): for a draw whose decimal representation is "0." followed by
fractional digits, the branch name is "swe-agent-fix-#<n>-" followed by the
first (at most) eight of those digits: the suffix consists only of digits and
has length exactly 8 whenever the representation has at least 8 fractional
digits, but is shorter for draws with short representations. -/
theorem c8_branch_name_amended (n : String) (ds : List Char)
    (h : ∀ c ∈ ds, c.isDigit = true) :
    branch_name n ⟨'0' :: '.' :: ds⟩
      = "swe-agent-fix-#" ++ n ++ "-" ++ ⟨ds.take 8⟩
    ∧ (∀ c ∈ ds.take 8, c.isDigit = true)
    ∧ (8 ≤ ds.length → (ds.take 8).length = 8) := by
  refine ⟨rfl, ?_, ?_⟩
  · intro c hc
    exact h c (List.take_subset 8 ds hc)
  · intro hlen
    simp [List.length_take]
    omega

/-- C8 witness: a typical draw with at least eight fractional digits. -/
theorem c8_witness :
    branch_name "7" ⟨'0' :: '.' :: "137137954".data⟩
      = "swe-agent-fix-#7-" ++ ⟨"137137954".data.take 8⟩
    ∧ (8 ≤ "137137954".data.length → ("137137954".data.take 8).length = 8) := by
  have h := c8_branch_name_amended "7" "137137954".data (by decide)
  exact ⟨h.1, h.2.2⟩

/-- C9: the GitLab API client sends exactly one auth header for a non-empty
token — `PRIVATE-TOKEN` for the (case-insensitively) private / personal /
project / group token types, `Authorization: Bearer` for "oauth" and every
other type — and no auth header for an empty token. -/
theorem c9_gitlab_auth_headers :
    (∀ token token_type : String, token ≠ "" →
      (pyLower token_type ∈ (["private", "personal", "project", "group"] : List String) →
        gitlabApiHeaders token token_type = [("PRIVATE-TOKEN", token)])
      ∧ (pyLower token_type ∉ (["private", "personal", "project", "group"] : List String) →
        gitlabApiHeaders token token_type = [("Authorization", "Bearer " ++ token)])
      ∧ (gitlabApiHeaders token token_type).length = 1)
    ∧ (∀ token_type : String, gitlabApiHeaders "" token_type = []) := by
  constructor
  · intro token token_type h
    refine ⟨fun hm => ?_, fun hm => ?_, ?_⟩
    · simp [gitlabApiHeaders, h, hm]
    · simp [gitlabApiHeaders, h, hm]
    · by_cases hm : pyLower token_type ∈ (["private", "personal", "project", "group"] : List String) <;>
        simp [gitlabApiHeaders, h, hm]
  · intro token_type
    simp [gitlabApiHeaders]

/-- C9 witness: concrete tokens through the theorem, one of each header. -/
theorem c9_witness :
    gitlabApiHeaders "tok" "Private" = [("PRIVATE-TOKEN", "tok")]
    ∧ gitlabApiHeaders "tok" "oauth" = [("Authorization", "Bearer " ++ "tok")]
    ∧ gitlabApiHeaders "" "oauth" = [] :=
  ⟨(c9_gitlab_auth_headers.1 "tok" "Private" (by decide)).1 (by decide),
   (c9_gitlab_auth_headers.1 "tok" "oauth" (by decide)).2.1 (by decide),
   c9_gitlab_auth_headers.2 "oauth"⟩

/-- C10 counterexample: "https://gitlab.com/" is not GitHub-prefixed and does
NOT match `_is_gitlab_repo_url`, so the claim's trichotomy puts it in the
`LocalRepoConfig` bucket — but the source's `auto` branch also accepts the
literal `https://gitlab.com/` / `git@gitlab.com` prefixes (repo.py:317) and
returns a `GitlabRepoConfig`. -/
theorem c10_counterexample :
    strStartsWith "https://gitlab.com/" "https://github.com/" = false
    ∧ strStartsWith "https://gitlab.com/" "git@github.com" = false
    ∧ _is_gitlab_repo_url "https://gitlab.com/" = false
    ∧ repo_from_simplified_input "https://gitlab.com/" "auto"
      = some (SimplifiedRepo.gitlab "https://gitlab.com/")
    ∧ repo_from_simplified_input "https://gitlab.com/" "auto"
      ≠ some (SimplifiedRepo.localPath "https://gitlab.com/") := by
  decide

/-- C10 (amended): in `auto` mode the GitHub prefix check takes precedence
(GitHub-prefixed inputs never produce a `GitlabRepoConfig` even when they
match the generic GitLab repo pattern); inputs that are not GitHub-prefixed
produce a `GitlabRepoConfig` iff they start with "https://gitlab.com/" or
"git@gitlab.com" or match `_is_gitlab_repo_url`; everything else produces a
`LocalRepoConfig`. -/
theorem c10_auto_classification_amended (input : String) :
    (strStartsWith input "https://github.com/" = true
        ∨ strStartsWith input "git@github.com" = true →
      repo_from_simplified_input input "auto" = some (.github (githubPostInit input)))
    ∧ (strStartsWith input "https://github.com/" = false →
      strStartsWith input "git@github.com" = false →
      (strStartsWith input "https://gitlab.com/" = true
        ∨ strStartsWith input "git@gitlab.com" = true
        ∨ _is_gitlab_repo_url input = true) →
      repo_from_simplified_input input "auto" = some (.gitlab (gitlabPostInit input)))
    ∧ (strStartsWith input "https://github.com/" = false →
      strStartsWith input "git@github.com" = false →
      strStartsWith input "https://gitlab.com/" = false →
      strStartsWith input "git@gitlab.com" = false →
      _is_gitlab_repo_url input = false →
      repo_from_simplified_input input "auto" = some (.localPath input)) := by
  refine ⟨?_, ?_, ?_⟩
  · intro h
    rcases h with h | h <;>
      simp [repo_from_simplified_input, repoFromSimplifiedAuto, h]
  · intro h1 h2 h
    rcases h with h | h | h <;>
      simp [repo_from_simplified_input, repoFromSimplifiedAuto, h1, h2, h]
  · intro h1 h2 h3 h4 h5
    simp [repo_from_simplified_input, repoFromSimplifiedAuto, h1, h2, h3, h4, h5]

/-- C10 witness: one input per bucket, including a GitHub URL that also
matches the generic GitLab repo pattern yet is classified as GitHub. -/
theorem c10_witness :
    _is_gitlab_repo_url "https://github.com/o/r" = true
    ∧ repo_from_simplified_input "https://github.com/o/r" "auto"
      = some (.github (githubPostInit "https://github.com/o/r"))
    ∧ repo_from_simplified_input "git@gitlab.com:u/repo.git" "auto"
      = some (.gitlab (gitlabPostInit "git@gitlab.com:u/repo.git"))
    ∧ repo_from_simplified_input "some/local/path" "auto"
      = some (.localPath "some/local/path") :=
  ⟨by decide,
   (c10_auto_classification_amended "https://github.com/o/r").1 (Or.inl (by decide)),
   (c10_auto_classification_amended "git@gitlab.com:u/repo.git").2.1 (by decide) (by decide)
     (Or.inr (Or.inl (by decide))),
   (c10_auto_classification_amended "some/local/path").2.2 (by decide) (by decide)
     (by decide) (by decide) (by decide)⟩

/-! ### C7: lines of the stripped, re-joined observation text -/

theorem boundary_isPyWS {c : Char} (h : isBoundaryChar c = true) : isPyWS c = true := by
  simp [isPyWS, h]

theorem splitAux_nil (skip : Bool) (cur : List Char) :
    splitAux skip cur [] = if cur.isEmpty then [] else [cur.reverse] := rfl

theorem splitAux_cons (skip : Bool) (cur : List Char) (c : Char) (rest : List Char) :
    splitAux skip cur (c :: rest) =
      if skip && c == '\n' then splitAux false cur rest
      else if c == '\r' then cur.reverse :: splitAux true [] rest
      else if isBoundaryChar c then cur.reverse :: splitAux false [] rest
      else splitAux false (c :: cur) rest := rfl

theorem noBoundary_nil : NoBoundary [] := fun c hc => absurd hc (List.not_mem_nil c)

theorem noBoundary_cons {c : Char} {l : List Char} (h : NoBoundary (c :: l)) :
    isBoundaryChar c = false ∧ NoBoundary l :=
  ⟨h c (List.mem_cons_self c l), fun d hd => h d (List.mem_cons_of_mem c hd)⟩

theorem noBoundary_reverse {l : List Char} (h : NoBoundary l) : NoBoundary l.reverse :=
  fun c hc => h c (List.mem_reverse.mp hc)

theorem splitAux_noBoundary (cs : List Char) : ∀ (skip : Bool) (cur : List Char),
    NoBoundary cur → ∀ l ∈ splitAux skip cur cs, NoBoundary l := by
  induction cs with
  | nil =>
    intro skip cur hcur l hl
    rw [splitAux_nil] at hl
    by_cases he : cur.isEmpty <;> simp [he] at hl
    subst hl
    exact noBoundary_reverse hcur
  | cons c rest ih =>
    intro skip cur hcur l hl
    rw [splitAux_cons] at hl
    by_cases h1 : (skip && c == '\n') = true
    · rw [if_pos h1] at hl
      exact ih false cur hcur l hl
    · rw [if_neg h1] at hl
      by_cases h2 : (c == '\r') = true
      · rw [if_pos h2] at hl
        rw [List.mem_cons] at hl
        rcases hl with hl | hl
        · subst hl; exact noBoundary_reverse hcur
        · exact ih true [] noBoundary_nil l hl
      · rw [if_neg h2] at hl
        by_cases h3 : isBoundaryChar c = true
        · rw [if_pos h3] at hl
          rw [List.mem_cons] at hl
          rcases hl with hl | hl
          · subst hl; exact noBoundary_reverse hcur
          · exact ih false [] noBoundary_nil l hl
        · rw [if_neg h3] at hl
          refine ih false (c :: cur) ?_ l hl
          intro d hd
          rw [List.mem_cons] at hd
          rcases hd with hd | hd
          · subst hd; simpa using h3
          · exact hcur d hd

theorem splitAux_noBnd_input (cs : List Char) : ∀ (skip : Bool) (cur : List Char),
    NoBoundary cs →
    splitAux skip cur cs = if cur = [] ∧ cs = [] then [] else [cur.reverse ++ cs] := by
  induction cs with
  | nil =>
    intro skip cur _
    rw [splitAux_nil]
    by_cases he : cur = []
    · simp [he]
    · simp [he, List.isEmpty_iff]
  | cons c rest ih =>
    intro skip cur hnb
    obtain ⟨hc, hrest⟩ := noBoundary_cons hnb
    have hn : ¬(c == '\n') = true := by
      intro hh
      rw [show c = '\n' from by simpa using hh] at hc
      simp [isBoundaryChar] at hc
    have hr : ¬(c == '\r') = true := by
      intro hh
      rw [show c = '\r' from by simpa using hh] at hc
      simp [isBoundaryChar] at hc
    rw [splitAux_cons, if_neg (by simp [hn]), if_neg hr, if_neg (by simp [hc])]
    rw [ih false (c :: cur) hrest]
    simp

theorem splitAux_append_nl (l : List Char) : ∀ (cur rest : List Char), NoBoundary l →
    splitAux false cur (l ++ '\n' :: rest)
      = (cur.reverse ++ l) :: splitAux false [] rest := by
  induction l with
  | nil =>
    intro cur rest _
    rw [List.nil_append, splitAux_cons]
    simp [isBoundaryChar]
  | cons c l' ih =>
    intro cur rest hnb
    obtain ⟨hc, hl'⟩ := noBoundary_cons hnb
    have hr : ¬(c == '\r') = true := by
      intro hh
      rw [show c = '\r' from by simpa using hh] at hc
      simp [isBoundaryChar] at hc
    rw [List.cons_append, splitAux_cons, if_neg (by simp), if_neg hr, if_neg (by simp [hc])]
    rw [ih (c :: cur) rest hl']
    simp

theorem joinNL_nil : joinNL [] = [] := rfl

theorem joinNL_single (l : List Char) : joinNL [l] = l := rfl

theorem joinNL_cons_cons (l l2 : List Char) (ls : List (List Char)) :
    joinNL (l :: l2 :: ls) = l ++ '\n' :: joinNL (l2 :: ls) := rfl

theorem pySplitlines_joinNL_mem (ls : List (List Char))
    (h : ∀ l ∈ ls, NoBoundary l) : ∀ m ∈ pySplitlines (joinNL ls), m ∈ ls := by
  induction ls with
  | nil =>
    intro m hm
    simp [pySplitlines, joinNL_nil, splitAux_nil] at hm
  | cons l ls ih =>
    cases ls with
    | nil =>
      intro m hm
      unfold pySplitlines at hm
      rw [joinNL_single, splitAux_noBnd_input l false [] (h l (by simp))] at hm
      by_cases he : l = []
      · simp [he] at hm
      · simp [he] at hm
        simp [hm]
    | cons l2 ls2 =>
      intro m hm
      unfold pySplitlines at hm
      rw [joinNL_cons_cons, splitAux_append_nl l [] (joinNL (l2 :: ls2)) (h l (by simp))] at hm
      rw [List.mem_cons] at hm
      rcases hm with hm | hm
      · simp [hm]
      · exact List.mem_cons_of_mem l (ih (fun x hx => h x (List.mem_cons_of_mem l hx)) m hm)

theorem dropWhile_joinNL (ls : List (List Char)) (h : ∀ l ∈ ls, NoBoundary l) :
    ∃ ls₂ : List (List Char),
      (joinNL ls).dropWhile isPyWS = joinNL ls₂
      ∧ (∀ m ∈ ls₂, ∃ l₀ ∈ ls, m = l₀ ∨ m = l₀.dropWhile isPyWS)
      ∧ (∀ m ∈ ls₂, NoBoundary m) := by
  induction ls with
  | nil => exact ⟨[], rfl, by simp, by simp⟩
  | cons l ls ih =>
    have hnb : NoBoundary l := h l (by simp)
    have hdnb : NoBoundary (l.dropWhile isPyWS) :=
      fun c hc => hnb c ((List.dropWhile_sublist isPyWS).subset hc)
    cases ls with
    | nil =>
      refine ⟨[l.dropWhile isPyWS], by rw [joinNL_single, joinNL_single], ?_, ?_⟩
      · intro m hm
        simp at hm
        exact ⟨l, by simp, Or.inr hm⟩
      · intro m hm
        simp at hm
        subst hm
        exact hdnb
    | cons l2 ls2 =>
      have htail : ∀ x ∈ l2 :: ls2, NoBoundary x :=
        fun x hx => h x (List.mem_cons_of_mem l hx)
      by_cases he : (l.dropWhile isPyWS).isEmpty
      · obtain ⟨ls₂, heq, hmem, hnb₂⟩ := ih htail
        refine ⟨ls₂, ?_, ?_, hnb₂⟩
        · rw [joinNL_cons_cons, List.dropWhile_append, if_pos he]
          rw [List.dropWhile_cons, if_pos (by decide : isPyWS '\n' = true)]
          exact heq
        · intro m hm
          obtain ⟨l₀, hl₀, hv⟩ := hmem m hm
          exact ⟨l₀, List.mem_cons_of_mem l hl₀, hv⟩
      · refine ⟨l.dropWhile isPyWS :: l2 :: ls2, ?_, ?_, ?_⟩
        · rw [joinNL_cons_cons, List.dropWhile_append, if_neg he, joinNL_cons_cons]
        · intro m hm
          rw [List.mem_cons] at hm
          rcases hm with hm | hm
          · exact ⟨l, by simp, Or.inr hm⟩
          · exact ⟨m, List.mem_cons_of_mem l hm, Or.inl rfl⟩
        · intro m hm
          rw [List.mem_cons] at hm
          rcases hm with hm | hm
          · subst hm; exact hdnb
          · exact htail m hm

theorem joinNL_append_single (A : List (List Char)) (x : List Char) (hA : A ≠ []) :
    joinNL (A ++ [x]) = joinNL A ++ '\n' :: x := by
  induction A with
  | nil => exact absurd rfl hA
  | cons a A ih =>
    cases A with
    | nil => rfl
    | cons a2 A2 =>
      have h1 : joinNL ((a :: a2 :: A2) ++ [x])
          = a ++ '\n' :: joinNL ((a2 :: A2) ++ [x]) := rfl
      have h2 : joinNL (a :: a2 :: A2) ++ '\n' :: x
          = a ++ '\n' :: (joinNL (a2 :: A2) ++ '\n' :: x) := by
        rw [joinNL_cons_cons]
        simp
      rw [h1, ih (by simp), h2]

theorem reverse_joinNL (ls : List (List Char)) :
    (joinNL ls).reverse = joinNL ((ls.map List.reverse).reverse) := by
  induction ls with
  | nil => rfl
  | cons l ls ih =>
    cases ls with
    | nil => rfl
    | cons l2 ls2 =>
      have h1 : (joinNL (l :: l2 :: ls2)).reverse
          = (joinNL (l2 :: ls2)).reverse ++ '\n' :: l.reverse := by
        rw [joinNL_cons_cons, List.reverse_append]
        simp
      have h2 : ((l :: l2 :: ls2).map List.reverse).reverse
          = ((l2 :: ls2).map List.reverse).reverse ++ [l.reverse] := by simp
      rw [h1, h2,
        joinNL_append_single (((l2 :: ls2).map List.reverse).reverse) l.reverse (by simp),
        ih]

theorem pyStripL_joinNL (ls : List (List Char)) (h : ∀ l ∈ ls, NoBoundary l) :
    ∃ ls₃ : List (List Char),
      pyStripL (joinNL ls) = joinNL ls₃
      ∧ (∀ m ∈ ls₃, ∃ l₀ ∈ ls, StripVariant l₀ m)
      ∧ (∀ m ∈ ls₃, NoBoundary m) := by
  obtain ⟨ls₂, h2eq, h2mem, h2nb⟩ := dropWhile_joinNL ls h
  have hMnb : ∀ y ∈ (ls₂.map List.reverse).reverse, NoBoundary y := by
    intro y hy
    rw [List.mem_reverse, List.mem_map] at hy
    obtain ⟨x, hx, rfl⟩ := hy
    exact noBoundary_reverse (h2nb x hx)
  obtain ⟨ls₂', h3eq, h3mem, h3nb⟩ := dropWhile_joinNL _ hMnb
  refine ⟨(ls₂'.map List.reverse).reverse, ?_, ?_, ?_⟩
  · unfold pyStripL
    rw [h2eq, reverse_joinNL ls₂, h3eq, reverse_joinNL ls₂']
  · intro m hm
    rw [List.mem_reverse, List.mem_map] at hm
    obtain ⟨z, hz, rfl⟩ := hm
    obtain ⟨y, hy, hv⟩ := h3mem z hz
    rw [List.mem_reverse, List.mem_map] at hy
    obtain ⟨x, hx, rfl⟩ := hy
    obtain ⟨l₀, hl₀, hvx⟩ := h2mem x hx
    rcases hv with hv | hv
    · subst hv
      rw [List.reverse_reverse]
      rcases hvx with hvx | hvx
      · exact ⟨l₀, hl₀, Or.inl hvx⟩
      · exact ⟨l₀, hl₀, Or.inr (Or.inl hvx)⟩
    · subst hv
      rcases hvx with hvx | hvx
      · refine ⟨l₀, hl₀, Or.inr (Or.inr (Or.inl ?_))⟩
        rw [hvx]
        rfl
      · refine ⟨l₀, hl₀, Or.inr (Or.inr (Or.inr ?_))⟩
        rw [hvx]
        rfl
  · intro m hm
    rw [List.mem_reverse, List.mem_map] at hm
    obtain ⟨z, hz, rfl⟩ := hm
    exact noBoundary_reverse (h3nb z hz)

theorem fence_shape {m : List Char} (h : isFenceLine m = true) :
    ∃ t, m = '`' :: '`' :: '`' :: t := by
  rcases m with _ | ⟨c1, m⟩
  · simp [isFenceLine, isPrefixList] at h
  rcases m with _ | ⟨c2, m⟩
  · simp [isFenceLine, isPrefixList] at h
  rcases m with _ | ⟨c3, m⟩
  · simp [isFenceLine, isPrefixList] at h
  simp only [isFenceLine, isPrefixList, Bool.and_true, Bool.and_eq_true, beq_iff_eq] at h
  obtain ⟨h1, h2, h3⟩ := h
  exact ⟨m, by rw [← h1, ← h2, ← h3]⟩

theorem fence_dropWhile_eq {m : List Char} (h : isFenceLine m = true) :
    m.dropWhile isPyWS = m := by
  obtain ⟨t, rfl⟩ := fence_shape h
  rw [List.dropWhile_cons, if_neg (by decide)]

theorem not_fence_of_dropWhile {m : List Char}
    (h : isFenceLine (m.dropWhile isPyWS) = false) : isFenceLine m = false := by
  cases hf : isFenceLine m
  · rfl
  · rw [fence_dropWhile_eq hf] at h
    exact absurd hf (by simp [h])

theorem fence_of_prefix_part {p m : List Char} (hp : p <+: m) (h : isFenceLine p = true) :
    isFenceLine m = true := by
  obtain ⟨t, rfl⟩ := fence_shape h
  obtain ⟨r, rfl⟩ := hp
  rfl

theorem dropTrail_prefix_self (l : List Char) : dropTrail l <+: l := by
  unfold dropTrail
  conv_rhs => rw [← List.reverse_reverse l]
  exact List.reverse_prefix.2 (List.dropWhile_suffix isPyWS)

theorem rmFence_cases (l : List Char) : rmFence l = l ∨ rmFence l = l.drop 3 := by
  unfold rmFence
  split
  · right; rfl
  · left; rfl

theorem rmFence_subset (l : List Char) : ∀ c ∈ rmFence l, c ∈ l := by
  rcases rmFence_cases l with h | h <;> rw [h]
  · exact fun c hc => hc
  · exact fun c hc => List.drop_subset 3 l hc

theorem not_fence_of_variant {l₀ m : List Char} (hv : StripVariant l₀ m)
    (h : isFenceLine (l₀.dropWhile isPyWS) = false) : isFenceLine m = false := by
  have hl₀ : isFenceLine l₀ = false := not_fence_of_dropWhile h
  rcases hv with hv | hv | hv | hv <;> subst hv
  · exact hl₀
  · exact h
  · cases hf : isFenceLine (dropTrail l₀)
    · rfl
    · exact absurd (fence_of_prefix_part (dropTrail_prefix_self l₀) hf) (by simp [hl₀])
  · cases hf : isFenceLine (dropTrail (l₀.dropWhile isPyWS))
    · rfl
    · exact absurd (fence_of_prefix_part (dropTrail_prefix_self _) hf) (by simp [h])

/-- C7 (amended): in the markdown body, each step's observation is embedded
inside a triple-backtick fence after `_remove_triple_backticks` (which removes
ONE leading triple backtick per line) and `str.strip()`; no line of the
embedded observation content begins with a triple backtick PROVIDED that no
observation line still begins with one after removing a single leading triple
backtick and any leading whitespace.  (A line of six backticks, or whitespace
followed by three backticks, escapes neutralization — see the
counterexample.) -/
theorem c7_neutralization_amended (obs : List Char)
    (h : (pySplitlines obs).all
      (fun l => !isFenceLine ((rmFence l).dropWhile isPyWS)) = true) :
    (pySplitlines (embeddedObservation obs)).all (fun l => !isFenceLine l) = true := by
  rw [List.all_eq_true] at h ⊢
  intro m hm
  have hlinesnb : ∀ l ∈ pySplitlines obs, NoBoundary l :=
    splitAux_noBoundary obs false [] noBoundary_nil
  have hnb : ∀ x ∈ (pySplitlines obs).map rmFence, NoBoundary x := by
    intro x hx
    rw [List.mem_map] at hx
    obtain ⟨l, hl, rfl⟩ := hx
    intro c hc
    exact hlinesnb l hl c (rmFence_subset l c hc)
  have hF : ∀ x ∈ (pySplitlines obs).map rmFence,
      isFenceLine (x.dropWhile isPyWS) = false := by
    intro x hx
    rw [List.mem_map] at hx
    obtain ⟨l, hl, rfl⟩ := hx
    have hh := h l hl
    simpa using hh
  obtain ⟨ls₃, heq, hmem, hnb₃⟩ := pyStripL_joinNL ((pySplitlines obs).map rmFence) hnb
  rw [show embeddedObservation obs
      = pyStripL (joinNL ((pySplitlines obs).map rmFence)) from rfl, heq] at hm
  have hm₃ : m ∈ ls₃ := pySplitlines_joinNL_mem ls₃ hnb₃ m hm
  obtain ⟨l₀, hl₀, hv⟩ := hmem m hm₃
  have hfin := not_fence_of_variant hv (hF l₀ hl₀)
  simpa using hfin

/-- C7 counterexample: the one-line observation of six backticks is
neutralized to a line of three backticks — a line of the embedded observation
content that begins with a triple backtick and terminates the enclosing
fence, refuting the claim as stated. -/
theorem c7_counterexample :
    embeddedObservation "``````".data = "```".data
    ∧ (pySplitlines (embeddedObservation "``````".data)).all (fun l => !isFenceLine l) = false := by
  decide

/-- C7 witness: a three-line observation with an inner code block, run
through the amended theorem. -/
theorem c7_witness :
    (pySplitlines "hello\n```py\nx``` y".data).all
      (fun l => !isFenceLine ((rmFence l).dropWhile isPyWS)) = true
    ∧ (pySplitlines (embeddedObservation "hello\n```py\nx``` y".data)).all
      (fun l => !isFenceLine l) = true :=
  ⟨by decide, c7_neutralization_amended _ (by decide)⟩

end SWEAgent
